import Mathlib

/-!
Verification of the queue-consumption and delivery engine of the
zarathustra-aws-ops repository.  The definitions below are a shallow
embedding of the Python sources: src/listeners/sqs_listener.py
(ZarathustraAWSOpsListener) and src/integrations/slack_responder.py
(SlackResponder).  Message bodies and processor results are modelled as
JSON-like values with Python truthiness, dictionary access and the
exceptions the interpreter would raise; side effects (queue deletes,
processor invocations, sink deliveries) are recorded in an effect list.
-/

/-- Values of the JSON data model used for SQS message bodies and
processor result dictionaries. -/
inductive JsonVal where
  | jnull : JsonVal
  | jbool : Bool → JsonVal
  | jnum : Int → JsonVal
  | jstr : String → JsonVal
  | jarr : List JsonVal → JsonVal
  | jobj : List (String × JsonVal) → JsonVal

/-- Python truthiness of a value. -/
def truthy : JsonVal → Bool
  | .jnull => false
  | .jbool b => b
  | .jnum n => n != 0
  | .jstr s => !s.isEmpty
  | .jarr xs => !xs.isEmpty
  | .jobj fs => !fs.isEmpty

/-- Truthiness of a possibly absent value (Python None is falsy). -/
def truthyOpt : Option JsonVal → Bool
  | none => false
  | some v => truthy v

/-- Dictionary field lookup (Python dict indexing or dict.get). -/
def lookupField : List (String × JsonVal) → String → Option JsonVal
  | [], _ => none
  | (k, v) :: rest, key => if k == key then some v else lookupField rest key

/-- Python equality of a value against a string constant: only an equal
string compares equal, every other value compares unequal. -/
def eqStrVal (k : String) : JsonVal → Bool
  | .jstr s => s == k
  | _ => false

/-- The Python expression a or b: returns a when a is truthy, else b. -/
def pyOr (a b : Option JsonVal) : Option JsonVal :=
  if truthyOpt a then a else b

/-- The Python exceptions the modelled code can raise. -/
inductive PyExc where
  | keyError : String → PyExc
  | typeError : PyExc
  | attributeError : PyExc

/-- Crude rendering of an exception, standing in for Python str(e). -/
def excStr : PyExc → String
  | .keyError k => "KeyError: " ++ k
  | .typeError => "TypeError"
  | .attributeError => "AttributeError"

/-- Whether the first character list is a leading segment of the second. -/
def charListIsPrefix : List Char → List Char → Bool
  | [], _ => true
  | _ :: _, [] => false
  | a :: as, b :: bs => a == b && charListIsPrefix as bs

/-- Whether the pattern occurs as a contiguous run inside the list,
modelling the Python substring test on strings. -/
def charListIsInfix : List Char → List Char → Bool
  | pat, [] => charListIsPrefix pat []
  | pat, c :: rest => charListIsPrefix pat (c :: rest) || charListIsInfix pat rest

/-- The Python membership test k in v: key membership for dicts, element
equality for lists, substring for strings, TypeError otherwise. -/
def pyContains (k : String) : JsonVal → Except PyExc Bool
  | .jobj fs => .ok (fs.any (fun p => p.1 == k))
  | .jarr xs => .ok (xs.any (eqStrVal k))
  | .jstr s => .ok (charListIsInfix k.data s.data)
  | _ => .error .typeError

/-!
SlackResponder (src/integrations/slack_responder.py).
-/

/-- Block size budget used by truncate_for_slack (source constant 2900). -/
def slackMaxLength : Nat := 2900

/-- Marker appended to truncated Slack text. -/
def slackTruncationMarker : String := "\n\n_...truncated_"

/-- Embedding of SlackResponder truncate_for_slack: identity on text of
length at most 2900, else the first 2900 characters plus the marker. -/
def truncate_for_slack (text : String) : String :=
  if text.length ≤ slackMaxLength then text
  else text.take slackMaxLength ++ slackTruncationMarker

/-- One Slack block, reduced to the mrkdwn text it carries. -/
structure SlackBlock where
  blockText : String

/-- The fixed header block of create_blocks. -/
def result_header_block (success : Bool) : SlackBlock :=
  ⟨(if success then ":white_check_mark:" else ":x:") ++ " *Result*"⟩

/-- Embedding of SlackResponder create_blocks: blocks for text longer
than 200 characters or containing a line break, otherwise none. -/
def create_blocks (text : String) (success : Bool) : Option (List SlackBlock) :=
  if 200 < text.length ∨ text.data.contains '\n' = true then
    some [result_header_block success, ⟨truncate_for_slack text⟩]
  else none

/-- Embedding of SlackResponder format_message: emoji prefix. -/
def format_message (text : String) (success : Bool) : String :=
  if success then "✅ " ++ text else "❌ " ++ text

/-- The JSON payload send_response posts to the Slack response url. -/
structure SlackPayload where
  responseType : String
  replaceOriginal : Bool
  payloadText : String
  blocks : Option (List SlackBlock)

/-- Embedding of SlackResponder send_response payload construction: the
blocks key is added only when create_blocks returns a truthy value. -/
def send_response_payload (text : String) (success : Bool)
    (responseType : String) (replaceOriginal : Bool) : SlackPayload :=
  ⟨responseType, replaceOriginal, format_message text success,
    match create_blocks text success with
    | some bs => if bs.isEmpty then none else some bs
    | none => none⟩

/-- C6: the chat-message truncation function is the identity on every
string of length at most 2900, and on every longer string it returns
exactly the first 2900 characters followed by the fixed marker. -/
theorem truncation_identity_and_cut (s : String) :
    (s.length ≤ 2900 → truncate_for_slack s = s) ∧
    (2900 < s.length →
      truncate_for_slack s = s.take 2900 ++ slackTruncationMarker) := by
  constructor
  · intro h
    simp only [truncate_for_slack, slackMaxLength]
    exact if_pos h
  · intro h
    simp only [truncate_for_slack, slackMaxLength]
    exact if_neg (Nat.not_le.mpr h)

/-- Concrete instances of the truncation theorem: a short string is
returned unchanged and a 2901-character string is cut at 2900. -/
theorem truncation_identity_and_cut_witness :
    truncate_for_slack "short" = "short" ∧
    truncate_for_slack (String.mk (List.replicate 2901 'x'))
      = (String.mk (List.replicate 2901 'x')).take 2900 ++ slackTruncationMarker := by
  have hlen : (String.mk (List.replicate 2901 'x')).length = 2901 := by
    exact List.length_replicate 2901 'x'
  exact ⟨(truncation_identity_and_cut "short").1 (by decide),
    (truncation_identity_and_cut _).2 (by rw [hlen]; exact Nat.lt_succ_self 2900)⟩

/-- C7: the Slack payload carries a blocks structure exactly when the
message text is longer than 200 characters or contains a line break, and
the text placed in blocks is the truncated text with marker. -/
theorem blocks_threshold_and_truncation (text : String) (success : Bool)
    (rt : String) (ro : Bool) :
    ((send_response_payload text success rt ro).blocks.isSome = true ↔
        (200 < text.length ∨ text.data.contains '\n' = true)) ∧
    (∀ bs, (send_response_payload text success rt ro).blocks = some bs →
        bs = [result_header_block success, ⟨truncate_for_slack text⟩]) := by
  by_cases h : 200 < text.length ∨ text.data.contains '\n' = true
  · have e : create_blocks text success
        = some [result_header_block success, ⟨truncate_for_slack text⟩] := by
      unfold create_blocks
      exact if_pos h
    have hblocks : (send_response_payload text success rt ro).blocks
        = some [result_header_block success, ⟨truncate_for_slack text⟩] := by
      show (match create_blocks text success with
        | some bs => if bs.isEmpty then none else some bs
        | none => none) = _
      rw [e]
      rfl
    constructor
    · rw [hblocks]
      exact iff_of_true rfl h
    · intro bs hbs
      rw [hblocks] at hbs
      exact (Option.some.inj hbs).symm
  · have e : create_blocks text success = none := by
      unfold create_blocks
      exact if_neg h
    have hblocks : (send_response_payload text success rt ro).blocks = none := by
      show (match create_blocks text success with
        | some bs => if bs.isEmpty then none else some bs
        | none => none) = _
      rw [e]
    constructor
    · rw [hblocks]
      exact iff_of_false (by simp) h
    · intro bs hbs
      rw [hblocks] at hbs
      exact Option.noConfusion hbs

/-- Concrete instances of the blocks theorem: a 201-character text gets
blocks holding the truncated text, a short simple text gets none. -/
theorem blocks_threshold_and_truncation_witness :
    ((send_response_payload (String.mk (List.replicate 201 'a')) true "in_channel" true).blocks.isSome = true) ∧
    ((send_response_payload "hi" true "in_channel" true).blocks.isSome = false) := by
  have hlen : (String.mk (List.replicate 201 'a')).length = 201 := by
    exact List.length_replicate 201 'a'
  constructor
  · exact (blocks_threshold_and_truncation (String.mk (List.replicate 201 'a'))
      true "in_channel" true).1.mpr (Or.inl (by rw [hlen]; exact Nat.lt_succ_self 200))
  · have h := (blocks_threshold_and_truncation "hi" true "in_channel" true).1
    by_cases hb : (send_response_payload "hi" true "in_channel" true).blocks.isSome = true
    · exfalso
      rcases h.mp hb with h1 | h2
      · revert h1; decide
      · revert h2; decide

    · simpa using hb

/-!
ZarathustraAWSOpsListener (src/listeners/sqs_listener.py), per-message
pipeline.  A raw SQS message carries an optional MessageId, an optional
ReceiptHandle, and a Body whose JSON decoding is represented up front:
missing key, undecodable text, or a parsed value.
-/

/-- The Body entry of a raw SQS message as seen through json.loads. -/
inductive BodyField where
  | missing : BodyField
  | unparseable : BodyField
  | parsed : JsonVal → BodyField

/-- A raw message dictionary as delivered by the queue client. -/
structure SqsMessage where
  messageId : Option String
  receiptHandle : Option String
  body : BodyField

/-- Observable side effects of processing one message. -/
inductive Effect where
  | deleteMsg : Option String → Effect
  | executeProc : JsonVal → Effect
  | slackSend : JsonVal → JsonVal → Effect
  | slackError : JsonVal → String → Effect
  | callbackPost : JsonVal → String → JsonVal → Effect

/-- Python dict.get with a default, raising AttributeError on non-dicts. -/
def dictGetD (v : JsonVal) (k : String) (d : JsonVal) : Except PyExc JsonVal :=
  match v with
  | .jobj fs => .ok ((lookupField fs k).getD d)
  | _ => .error .attributeError

/-- Python dict.get without a default (None when the key is absent),
raising AttributeError on non-dicts. -/
def dictGetOpt (v : JsonVal) (k : String) : Except PyExc (Option JsonVal) :=
  match v with
  | .jobj fs => .ok (lookupField fs k)
  | _ => .error .attributeError

/-- Python subscript v[k]: KeyError when the key is absent from a dict,
TypeError when v is not a dict. -/
def pySubscript (v : JsonVal) (k : String) : Except PyExc JsonVal :=
  match v with
  | .jobj fs =>
      match lookupField fs k with
      | some w => .ok w
      | none => .error (.keyError k)
  | _ => .error .typeError

/-- Python equality of an optional value against a string constant. -/
def eqStrOpt (o : Option JsonVal) (k : String) : Bool :=
  match o with
  | some v => eqStrVal k v
  | none => false

/-- The slice request_text[:100] done while logging: fine on strings and
lists, TypeError on None and every other value. -/
def pySliceCheck : Option JsonVal → Except PyExc Unit
  | some (.jstr _) => .ok ()
  | some (.jarr _) => .ok ()
  | _ => .error .typeError

/-- Embedding of validate_message: the body passes when the Python
membership test finds a request key or, failing that, a prompt key.
Only presence is tested, not emptiness. -/
def validate_message (v : JsonVal) : Except PyExc Bool := do
  let hasReq ← pyContains "request" v
  if hasReq then
    pure true
  else do
    let hasPrompt ← pyContains "prompt" v
    pure hasPrompt

/-- Routing data extracted from a validated message body. -/
structure DecodedInfo where
  requestText : Option JsonVal
  isSlack : Bool
  slackRespUrl : Option JsonVal
  callbackUrl : Option JsonVal

/-- Embedding of the is_slack computation: true when source equals the
string slack, else the truthiness of the slack_event_type entry of the
metadata mapping, raising AttributeError when metadata is not a dict. -/
def computeIsSlack (fs : List (String × JsonVal)) : Except PyExc Bool :=
  if eqStrVal "slack" ((lookupField fs "source").getD (.jstr "")) then .ok true
  else
    match (lookupField fs "metadata").getD (.jobj []) with
    | .jobj mfs => .ok (truthyOpt (lookupField mfs "slack_event_type"))
    | _ => .error .attributeError

/-- Embedding of the slack_response_url computation: the metadata entry
slack_response_url, falling back to the body entry callback_url. -/
def computeSlackUrl (fs : List (String × JsonVal)) : Except PyExc (Option JsonVal) :=
  match (lookupField fs "metadata").getD (.jobj []) with
  | .jobj mfs => .ok (pyOr (lookupField mfs "slack_response_url") (lookupField fs "callback_url"))
  | _ => .error .attributeError

/-- The decode steps of process_message between json.loads and the
processor call, in source order: validation, request text extraction and
slicing, is_slack, slack_response_url.  Returns none for a message that
fails validation (the poison path), the extracted routing data on
success, and the Python exception the interpreter would raise. -/
def decodePhase (v : JsonVal) : Except PyExc (Option DecodedInfo) := do
  let valid ← validate_message v
  if valid then
    match v with
    | .jobj fs => do
        let rt := pyOr (lookupField fs "request") (lookupField fs "prompt")
        let _ ← pySliceCheck rt
        let isSlack ← computeIsSlack fs
        let sru ← computeSlackUrl fs
        pure (some ⟨rt, isSlack, sru, lookupField fs "callback_url"⟩)
    | _ => .error .attributeError
  else
    pure none

/-- Fixed text _send_slack_error places before the error message. -/
def slackErrPrefix : String := "*Error processing request:*\n"

/-- Crude rendering of a value interpolated into an f-string. -/
def pyStr : JsonVal → String
  | .jnull => "None"
  | .jbool true => "True"
  | .jbool false => "False"
  | .jnum n => toString n
  | .jstr s => s
  | .jarr _ => "[...]"
  | .jobj _ => "[object]"

/-- The result.get fallback used on the failure branch. -/
def resultErr (r : JsonVal) : JsonVal :=
  match r with
  | .jobj fs => (lookupField fs "error").getD (.jstr "Unknown error")
  | _ => .jstr "Unknown error"

/-- Embedding of the response routing of process_message lines 140 to
159: the Slack sink when is_slack holds and a slack_response_url is
truthy, else the generic webhook when callback_url is truthy, else no
sink.  The success flag of the processor result picks between
_send_slack_response and _send_slack_error. -/
def route_sinks (info : DecodedInfo) (mid : String) (r : JsonVal) (sv : JsonVal) : List Effect :=
  if info.isSlack && truthyOpt info.slackRespUrl then
    match info.slackRespUrl with
    | some u =>
        if truthy sv then [.slackSend u r]
        else [.slackError u (slackErrPrefix ++ pyStr (resultErr r))]
    | none => []
  else
    match info.callbackUrl with
    | some cu => if truthy cu then [.callbackPost cu mid r] else []
    | none => []

/-- The url the generic exception handler of process_message would send
a Slack error to, when the raw body can be re-parsed and carries a
slack source marker; any exception inside the handler yields none. -/
def handler_route (v : JsonVal) : Except PyExc (Option JsonVal) := do
  let md ← dictGetD v "metadata" (.jobj [])
  let sru1 ← dictGetOpt md "slack_response_url"
  let cbu ← dictGetOpt v "callback_url"
  let sru := pyOr sru1 cbu
  let src ← dictGetOpt v "source"
  if truthyOpt sru && eqStrOpt src "slack" then pure sru else pure none

/-- Effects of the generic exception handler of process_message lines
175 to 192: a best effort Slack error when the body re-parses and names
a slack source and url, nothing otherwise, and never a delete. -/
def except_handler_effects (body : BodyField) (estr : String) : List Effect :=
  match body with
  | .parsed v =>
      match handler_route v with
      | .ok (some u) => [.slackError u (slackErrPrefix ++ estr)]
      | _ => []
  | _ => []

/-- Continuation of process_message after the processor returned r and
the subscript on its success entry was attempted: a readable entry picks
the success or failure branch, both of which delete and then route; an
unreadable entry falls to the generic handler after the delete. -/
def after_subscript (mid : String) (rh : Option String) (v : JsonVal)
    (info : DecodedInfo) (r : JsonVal) :
    Except PyExc JsonVal → List Effect × JsonVal
  | .error e =>
      ([.executeProc v, .deleteMsg rh] ++ except_handler_effects (.parsed v) (excStr e),
       .jobj [("success", .jbool false), ("message_id", .jstr mid),
              ("error", .jstr (excStr e))])
  | .ok sv =>
      if truthy sv then
        ([.executeProc v, .deleteMsg rh] ++ route_sinks info mid r sv,
         .jobj [("success", .jbool true), ("message_id", .jstr mid),
                ("result", r)])
      else
        ([.executeProc v, .deleteMsg rh] ++ route_sinks info mid r sv,
         .jobj [("success", .jbool false), ("message_id", .jstr mid),
                ("error", resultErr r)])

/-- Continuation of process_message after the decode succeeded and the
processor was invoked: a raising processor drops to the generic handler
with no delete, a returning processor is followed by delete and routing. -/
def after_proc (mid : String) (rh : Option String) (v : JsonVal) (info : DecodedInfo) :
    Except String JsonVal → List Effect × JsonVal
  | .error m =>
      ([.executeProc v] ++ except_handler_effects (.parsed v) m,
       .jobj [("success", .jbool false), ("message_id", .jstr mid),
              ("error", .jstr m)])
  | .ok r => after_subscript mid rh v info r (pySubscript r "success")

/-- Continuation of process_message after json.loads succeeded: a decode
exception falls to the generic handler, a failed validation is the
poison path (delete, failure dict), a successful decode invokes the
processor. -/
def after_decode (mid : String) (rh : Option String) (v : JsonVal)
    (proc : JsonVal → Except String JsonVal) :
    Except PyExc (Option DecodedInfo) → List Effect × JsonVal
  | .error e =>
      (except_handler_effects (.parsed v) (excStr e),
       .jobj [("success", .jbool false), ("message_id", .jstr mid),
              ("error", .jstr (excStr e))])
  | .ok none =>
      ([.deleteMsg rh],
       .jobj [("success", .jbool false), ("message_id", .jstr mid),
              ("error", .jstr "Invalid message format")])
  | .ok (some info) => after_proc mid rh v info (proc v)

/-- Embedding of ZarathustraAWSOpsListener process_message: the complete
per-message pipeline with its try/except structure.  The processor
stands for workflow_manager.process_aws_operation and may either return
a result value or raise.  Returns the effect list in execution order and
the Python dict process_message returns to its caller. -/
def process_message (proc : JsonVal → Except String JsonVal) :
    SqsMessage → List Effect × JsonVal
  | ⟨mi, _, .missing⟩ =>
      (except_handler_effects .missing (excStr (.keyError "Body")),
       .jobj [("success", .jbool false), ("message_id", .jstr (mi.getD "unknown")),
              ("error", .jstr (excStr (.keyError "Body")))])
  | ⟨mi, rh, .unparseable⟩ =>
      ([.deleteMsg rh],
       .jobj [("success", .jbool false), ("message_id", .jstr (mi.getD "unknown")),
              ("error", .jstr "Invalid JSON: Expecting value")])
  | ⟨mi, rh, .parsed v⟩ => after_decode (mi.getD "unknown") rh v proc (decodePhase v)

/-- Whether an effect is a queue delete. -/
def isDeleteEff : Effect → Bool
  | .deleteMsg _ => true
  | _ => false

/-- Whether an effect is a processor invocation. -/
def isExecEff : Effect → Bool
  | .executeProc _ => true
  | _ => false

/-- Whether an effect is a response sink invocation of any kind. -/
def isSinkEff : Effect → Bool
  | .slackSend _ _ => true
  | .slackError _ _ => true
  | .callbackPost _ _ _ => true
  | _ => false

/-- Whether an effect is a chat platform sink invocation. -/
def isChatSink : Effect → Bool
  | .slackSend _ _ => true
  | .slackError _ _ => true
  | _ => false

/-- Whether an effect is a generic webhook invocation. -/
def isWebhookSink : Effect → Bool
  | .callbackPost _ _ _ => true
  | _ => false

/-- The destination url carried by a sink effect. -/
def sinkUrl : Effect → Option JsonVal
  | .slackSend u _ => some u
  | .slackError u _ => some u
  | .callbackPost u _ _ => some u
  | _ => none

/-- Number of queue deletes in an effect list. -/
def countDeletes (effs : List Effect) : Nat := (effs.filter isDeleteEff).length

/-- Number of processor invocations in an effect list. -/
def countExecs (effs : List Effect) : Nat := (effs.filter isExecEff).length

/-- The sink invocations of an effect list, in order. -/
def sinkEffects (effs : List Effect) : List Effect := effs.filter isSinkEff

/-- Success flag read back from a returned result dict. -/
def resultSuccess (r : JsonVal) : Option Bool :=
  match r with
  | .jobj fs =>
      match lookupField fs "success" with
      | some (.jbool b) => some b
      | _ => none
  | _ => none

/-!
Helper lemmas about the effect lists the pipeline can produce.
-/

/-- Delete counting distributes over list append. -/
theorem countDeletes_append (a b : List Effect) :
    countDeletes (a ++ b) = countDeletes a + countDeletes b := by
  simp [countDeletes, List.filter_append]

/-- A lone processor invocation contains no delete. -/
theorem countDeletes_exec (v : JsonVal) : countDeletes [Effect.executeProc v] = 0 := rfl

/-- A processor invocation followed by a delete contains one delete. -/
theorem countDeletes_exec_delete (v : JsonVal) (rh : Option String) :
    countDeletes [Effect.executeProc v, Effect.deleteMsg rh] = 1 := rfl

/-- A lone delete counts as one delete. -/
theorem countDeletes_delete (rh : Option String) :
    countDeletes [Effect.deleteMsg rh] = 1 := rfl

/-- The generic exception handler never deletes, never invokes the
processor, and sends at most one sink call. -/
theorem except_handler_effects_shape (b : BodyField) (e : String) :
    countDeletes (except_handler_effects b e) = 0
    ∧ countExecs (except_handler_effects b e) = 0
    ∧ (sinkEffects (except_handler_effects b e)).length ≤ 1
    ∧ ∀ x, x ∈ except_handler_effects b e → isWebhookSink x = false := by
  cases b with
  | missing => simp [except_handler_effects, countDeletes, countExecs, sinkEffects]
  | unparseable => simp [except_handler_effects, countDeletes, countExecs, sinkEffects]
  | parsed v =>
      cases h : handler_route v with
      | error e2 =>
          simp [except_handler_effects, h, countDeletes, countExecs, sinkEffects]
      | ok o =>
          cases o with
          | none =>
              simp [except_handler_effects, h, countDeletes, countExecs, sinkEffects]
          | some u =>
              simp [except_handler_effects, h, countDeletes, countExecs, sinkEffects,
                List.filter, isDeleteEff, isExecEff, isSinkEff, isWebhookSink]

/-- The routing step never deletes, never invokes the processor, and
invokes at most one sink. -/
theorem route_sinks_shape (info : DecodedInfo) (mid : String) (r sv : JsonVal) :
    countDeletes (route_sinks info mid r sv) = 0
    ∧ countExecs (route_sinks info mid r sv) = 0
    ∧ (sinkEffects (route_sinks info mid r sv)).length ≤ 1 := by
  unfold route_sinks
  by_cases h : (info.isSlack && truthyOpt info.slackRespUrl) = true
  · rw [if_pos h]
    cases info.slackRespUrl with
    | none => simp [countDeletes, countExecs, sinkEffects]
    | some u =>
        by_cases hsv : truthy sv = true <;>
          simp [hsv, countDeletes, countExecs, sinkEffects,
            List.filter, isDeleteEff, isExecEff, isSinkEff]
  · rw [if_neg h]
    cases info.callbackUrl with
    | none => simp [countDeletes, countExecs, sinkEffects]
    | some cu =>
        by_cases hcu : truthy cu = true <;>
          simp [hcu, countDeletes, countExecs, sinkEffects,
            List.filter, isDeleteEff, isExecEff, isSinkEff]

/-- Unfolding of process_message on the branch where decode succeeds and
the processor returns a result whose success entry is readable. -/
theorem process_message_main_effects (proc : JsonVal → Except String JsonVal)
    (msg : SqsMessage) (v : JsonVal) (info : DecodedInfo) (r sv : JsonVal)
    (hb : msg.body = .parsed v) (hd : decodePhase v = .ok (some info))
    (hp : proc v = .ok r) (hs : pySubscript r "success" = .ok sv) :
    (process_message proc msg).1
      = [.executeProc v, .deleteMsg msg.receiptHandle]
          ++ route_sinks info (msg.messageId.getD "unknown") r sv := by
  obtain ⟨mi, rh, body⟩ := msg
  simp only at hb
  subst hb
  simp only [process_message, hd, after_decode, hp, after_proc, hs]
  by_cases hsv : truthy sv = true <;> simp [after_subscript, hsv]


/-- C10: process_message is total at its public interface.  For every
processor behaviour and every input message it returns a dict whose
success entry is a boolean and whose message_id entry is the MessageId
of the message, the string unknown when that field is absent; the
embedding returns a plain value on every path, mirroring the try/except
structure that stops any exception from escaping. -/
theorem process_message_total_shape (proc : JsonVal → Except String JsonVal)
    (msg : SqsMessage) :
    ∃ fs b, (process_message proc msg).2 = .jobj fs
      ∧ lookupField fs "success" = some (.jbool b)
      ∧ lookupField fs "message_id" = some (.jstr (msg.messageId.getD "unknown")) := by
  obtain ⟨mi, rh, body⟩ := msg
  cases body with
  | missing => exact ⟨_, false, rfl, rfl, rfl⟩
  | unparseable => exact ⟨_, false, rfl, rfl, rfl⟩
  | parsed v =>
      simp only [process_message]
      cases hd : decodePhase v with
      | error e => exact ⟨_, false, rfl, rfl, rfl⟩
      | ok o =>
          cases o with
          | none => exact ⟨_, false, rfl, rfl, rfl⟩
          | some info =>
              simp only [after_decode]
              cases hp : proc v with
              | error m => exact ⟨_, false, rfl, rfl, rfl⟩
              | ok r =>
                  simp only [after_proc]
                  cases hs : pySubscript r "success" with
                  | error e => exact ⟨_, false, rfl, rfl, rfl⟩
                  | ok sv =>
                      simp only [after_subscript]
                      by_cases hsv : truthy sv = true
                      · simp only [hsv, if_true]
                        exact ⟨_, true, rfl, rfl, rfl⟩
                      · simp only [Bool.not_eq_true] at hsv
                        simp only [hsv, Bool.false_eq_true, if_false]
                        exact ⟨_, false, rfl, rfl, rfl⟩

/-- C1 (amended): the Delete call count of one processed message is
fully characterized.  It is at most one, and it equals one exactly for
an unparseable body, a body that fails validation, or a decode that
succeeds with a processor that returns; it is zero when the Body key is
missing, when a decode step raises, or when the processor raises. -/
theorem delete_call_characterization (proc : JsonVal → Except String JsonVal)
    (msg : SqsMessage) :
    countDeletes (process_message proc msg).1 ≤ 1
    ∧ countDeletes (process_message proc msg).1
        = (match msg.body with
           | .missing => 0
           | .unparseable => 1
           | .parsed v =>
               match decodePhase v with
               | .error _ => 0
               | .ok none => 1
               | .ok (some _) =>
                   match proc v with
                   | .error _ => 0
                   | .ok _ => 1) := by
  have key : countDeletes (process_message proc msg).1
      = (match msg.body with
         | .missing => 0
         | .unparseable => 1
         | .parsed v =>
             match decodePhase v with
             | .error _ => 0
             | .ok none => 1
             | .ok (some _) =>
                 match proc v with
                 | .error _ => 0
                 | .ok _ => 1) := by
    obtain ⟨mi, rh, body⟩ := msg
    cases body with
    | missing =>
        simpa [process_message] using
          (except_handler_effects_shape .missing (excStr (.keyError "Body"))).1
    | unparseable => simp [process_message, countDeletes_delete]
    | parsed v =>
        simp only [process_message]
        cases hd : decodePhase v with
        | error e =>
            simpa [after_decode, hd] using
              (except_handler_effects_shape (.parsed v) (excStr e)).1
        | ok o =>
            cases o with
            | none => simp [after_decode, hd, countDeletes_delete]
            | some info =>
                simp only [after_decode]
                cases hp : proc v with
                | error m =>
                    have h1 := (except_handler_effects_shape (.parsed v) m).1
                    simp only [after_proc]
                    rw [countDeletes_append, h1, countDeletes_exec]
                | ok r =>
                    simp only [after_proc]
                    cases hs : pySubscript r "success" with
                    | error e =>
                        have h1 := (except_handler_effects_shape (.parsed v) (excStr e)).1
                        simp only [after_subscript]
                        rw [countDeletes_append, h1, countDeletes_exec_delete]
                    | ok sv =>
                        have h1 := (route_sinks_shape info (mi.getD "unknown") r sv).1
                        simp only [after_subscript, apply_ite Prod.fst, ite_self]
                        rw [countDeletes_append, h1, countDeletes_exec_delete]
  refine ⟨?_, key⟩
  rw [key]
  split
  · exact Nat.zero_le 1
  · exact Nat.le_refl 1
  · split
    · exact Nat.zero_le 1
    · exact Nat.le_refl 1
    · split
      · exact Nat.zero_le 1
      · exact Nat.le_refl 1

/-- A processor that always returns a successful result dict. -/
def procAccepts : JsonVal → Except String JsonVal :=
  fun _ => .ok (.jobj [("success", .jbool true)])

/-- C1 counterexample: a message whose body parses and validates but
whose metadata entry is not a mapping raises inside the decode steps,
lands in the generic exception handler, and is never deleted, although
its processing attempt completes without crashing the process. -/
theorem delete_skipped_on_exception :
    countDeletes (process_message procAccepts
      ⟨some "m1", some "r1",
        .parsed (.jobj [("request", .jstr "hi"), ("metadata", .jnum 5)])⟩).1 = 0 := by
  rfl

/-- C2 counterexample: a body whose request entry is present but empty
passes validation, then raises a TypeError slicing None, so the message
is never deleted even though it has no non-empty request or prompt. -/
theorem empty_request_not_deleted :
    countDeletes (process_message procAccepts
      ⟨some "m2", some "r2", .parsed (.jobj [("request", .jstr "")])⟩).1 = 0 := by
  rfl

/-- A body that fails validation decodes to the poison outcome. -/
theorem decodePhase_of_invalid (v : JsonVal) (h : validate_message v = .ok false) :
    decodePhase v = .ok none := by
  unfold decodePhase
  rw [h]
  rfl

/-- C2 (amended): every message whose body fails to parse as JSON, or
whose parsed body fails the Python membership test for both the request
and the prompt key without raising, is deleted exactly once with no
other effect: the processor is never invoked, no sink is invoked, and
the returned result reports failure.  Present but empty fields pass
validation and are not covered. -/
theorem poison_message_handling (proc : JsonVal → Except String JsonVal)
    (msg : SqsMessage) :
    (msg.body = .unparseable →
        (process_message proc msg).1 = [.deleteMsg msg.receiptHandle]
        ∧ resultSuccess (process_message proc msg).2 = some false)
    ∧ (∀ v, msg.body = .parsed v → validate_message v = .ok false →
        (process_message proc msg).1 = [.deleteMsg msg.receiptHandle]
        ∧ resultSuccess (process_message proc msg).2 = some false) := by
  obtain ⟨mi, rh, body⟩ := msg
  constructor
  · intro hb
    simp only at hb
    subst hb
    exact ⟨rfl, rfl⟩
  · intro v hb hval
    simp only at hb
    subst hb
    have hd := decodePhase_of_invalid v hval
    constructor
    · simp only [process_message, hd, after_decode]
    · simp only [process_message, hd, after_decode]
      rfl

/-- A sample message with neither request nor prompt key. -/
def msgPoisonSample : SqsMessage :=
  ⟨some "mp", some "rp", .parsed (.jobj [("note", .jstr "x")])⟩

/-- Concrete instance of the poison handling theorem on a body lacking
both text fields. -/
theorem poison_message_handling_witness :
    (process_message procAccepts msgPoisonSample).1 = [.deleteMsg (some "rp")]
    ∧ resultSuccess (process_message procAccepts msgPoisonSample).2 = some false := by
  exact (poison_message_handling procAccepts msgPoisonSample).2
    (.jobj [("note", .jstr "x")]) rfl (by rfl)

/-- Bind of a successful Except value reduces to the continuation. -/
theorem exc_bind_ok {e a b : Type} (x : a) (f : a → Except e b) :
    (Except.ok x : Except e a) >>= f = f x := rfl

/-- Bind of a failed Except value propagates the failure. -/
theorem exc_bind_err {e a b : Type} (x : e) (f : a → Except e b) :
    (Except.error x : Except e a) >>= f = .error x := rfl

/-- On a dict body, validation never raises and reduces to the two key
membership tests. -/
theorem validate_jobj (fs : List (String × JsonVal)) :
    validate_message (.jobj fs)
      = .ok ((fs.any fun p => p.1 == "request") || (fs.any fun p => p.1 == "prompt")) := by
  cases hreq : fs.any (fun p => p.1 == "request") <;>
    · simp only [validate_message, pyContains]
      rw [hreq]
      rfl

/-- Inversion of a successful decode on a dict body: the routing fields
of the returned record are the values of the is_slack, slack url and
callback url computations on that body. -/
theorem decodePhase_jobj_inv (fs : List (String × JsonVal)) (info : DecodedInfo)
    (h : decodePhase (.jobj fs) = .ok (some info)) :
    computeIsSlack fs = .ok info.isSlack
    ∧ computeSlackUrl fs = .ok info.slackRespUrl
    ∧ info.callbackUrl = lookupField fs "callback_url" := by
  unfold decodePhase at h
  rw [validate_jobj] at h
  cases hb : ((fs.any fun p => p.1 == "request") || fs.any fun p => p.1 == "prompt") with
  | false =>
      rw [hb] at h
      rw [exc_bind_ok] at h
      exact Option.noConfusion (Except.ok.inj h)
  | true =>
      rw [hb] at h
      rw [exc_bind_ok] at h
      simp only [if_true] at h
      cases hsl : pySliceCheck (pyOr (lookupField fs "request") (lookupField fs "prompt")) with
      | error e =>
          rw [hsl, exc_bind_err] at h
          exact Except.noConfusion h
      | ok u =>
          cases u
          rw [hsl, exc_bind_ok] at h
          cases his : computeIsSlack fs with
          | error e =>
              rw [his, exc_bind_err] at h
              exact Except.noConfusion h
          | ok isl =>
              rw [his, exc_bind_ok] at h
              cases hurl : computeSlackUrl fs with
              | error e =>
                  rw [hurl, exc_bind_err] at h
                  exact Except.noConfusion h
              | ok sru =>
                  rw [hurl, exc_bind_ok] at h
                  have h2 : (some ⟨pyOr (lookupField fs "request") (lookupField fs "prompt"),
                      isl, sru, lookupField fs "callback_url"⟩ : Option DecodedInfo)
                      = some info := Except.ok.inj h
                  have h3 := Option.some.inj h2
                  subst h3
                  exact ⟨rfl, rfl, rfl⟩

/-- A Bool that is not true is false. -/
theorem bool_eq_false (b : Bool) (h : ¬ b = true) : b = false := by
  cases b
  · rfl
  · exact absurd rfl h

/-- Sink filtering distributes over list append. -/
theorem sinkEffects_append (a b : List Effect) :
    sinkEffects (a ++ b) = sinkEffects a ++ sinkEffects b := by
  simp [sinkEffects, List.filter_append]

/-- The processor call and the delete are not sinks. -/
theorem sinkEffects_exec_delete (v : JsonVal) (rh : Option String) :
    sinkEffects [Effect.executeProc v, Effect.deleteMsg rh] = [] := rfl

/-- A lone processor call is not a sink. -/
theorem sinkEffects_exec (v : JsonVal) : sinkEffects [Effect.executeProc v] = [] := rfl

/-- A lone delete is not a sink. -/
theorem sinkEffects_delete (rh : Option String) :
    sinkEffects [Effect.deleteMsg rh] = [] := rfl

/-- Routing with a slack classification and a truthy slack url produces
exactly one chat sink call to that url, picked by the success flag. -/
theorem route_sinks_chat (info : DecodedInfo) (mid : String) (r sv : JsonVal)
    (h1 : info.isSlack = true) (h2 : truthyOpt info.slackRespUrl = true) :
    ∃ u, info.slackRespUrl = some u
      ∧ (truthy sv = true → route_sinks info mid r sv = [.slackSend u r])
      ∧ (truthy sv = false →
          route_sinks info mid r sv
            = [.slackError u (slackErrPrefix ++ pyStr (resultErr r))]) := by
  cases hu : info.slackRespUrl with
  | none =>
      rw [hu] at h2
      simp [truthyOpt] at h2
  | some u =>
      rw [hu] at h2
      simp only [truthyOpt] at h2
      refine ⟨u, rfl, fun hsv => ?_, fun hsv => ?_⟩
      · simp [route_sinks, h1, hu, truthyOpt, h2, hsv]
      · simp [route_sinks, h1, hu, truthyOpt, h2, hsv]

/-- Routing without the chat condition but with a truthy callback url
produces exactly one webhook call. -/
theorem route_sinks_webhook (info : DecodedInfo) (mid : String) (r sv : JsonVal)
    (h : (info.isSlack && truthyOpt info.slackRespUrl) = false)
    (cu : JsonVal) (hcu : info.callbackUrl = some cu) (hct : truthy cu = true) :
    route_sinks info mid r sv = [.callbackPost cu mid r] := by
  simp [route_sinks, h, hcu, hct]

/-- Routing with neither condition produces no sink call. -/
theorem route_sinks_no_sink (info : DecodedInfo) (mid : String) (r sv : JsonVal)
    (h : (info.isSlack && truthyOpt info.slackRespUrl) = false)
    (hcb : truthyOpt info.callbackUrl = false) :
    route_sinks info mid r sv = [] := by
  cases hcu : info.callbackUrl with
  | none => simp [route_sinks, h, hcu]
  | some cu =>
      rw [hcu] at hcb
      simp only [truthyOpt] at hcb
      simp [route_sinks, h, hcu, hcb]

/-- C3: at most one response sink is invoked per message, and on the
completed path the priority is the chat sink when the message is slack
classified with a truthy chat response url (the webhook is then never
called even with a callback url present), else the webhook when the
callback url is truthy, else no sink. -/
theorem routing_priority_single_sink (proc : JsonVal → Except String JsonVal)
    (msg : SqsMessage) :
    (sinkEffects (process_message proc msg).1).length ≤ 1
    ∧ (∀ v info r sv,
        msg.body = .parsed v → decodePhase v = .ok (some info) →
        proc v = .ok r → pySubscript r "success" = .ok sv →
        (((info.isSlack && truthyOpt info.slackRespUrl) = true →
            (∃ e, sinkEffects (process_message proc msg).1 = [e] ∧ isChatSink e = true)
            ∧ ∀ x ∈ (process_message proc msg).1, isWebhookSink x = false)
        ∧ ((info.isSlack && truthyOpt info.slackRespUrl) = false →
            ∀ cu, info.callbackUrl = some cu → truthy cu = true →
              sinkEffects (process_message proc msg).1
                = [.callbackPost cu (msg.messageId.getD "unknown") r])
        ∧ ((info.isSlack && truthyOpt info.slackRespUrl) = false →
            truthyOpt info.callbackUrl = false →
            sinkEffects (process_message proc msg).1 = []))) := by
  constructor
  · obtain ⟨mi, rh, body⟩ := msg
    cases body with
    | missing =>
        simpa [process_message] using
          (except_handler_effects_shape .missing (excStr (.keyError "Body"))).2.2.1
    | unparseable => simp [process_message, sinkEffects_delete]
    | parsed v =>
        simp only [process_message]
        cases hd : decodePhase v with
        | error e =>
            simpa [after_decode] using
              (except_handler_effects_shape (.parsed v) (excStr e)).2.2.1
        | ok o =>
            cases o with
            | none => simp [after_decode, sinkEffects_delete]
            | some info =>
                simp only [after_decode]
                cases hp : proc v with
                | error m =>
                    have h1 := (except_handler_effects_shape (.parsed v) m).2.2.1
                    simp only [after_proc]
                    rw [sinkEffects_append, sinkEffects_exec]
                    simpa using h1
                | ok r =>
                    simp only [after_proc]
                    cases hs : pySubscript r "success" with
                    | error e =>
                        have h1 := (except_handler_effects_shape (.parsed v) (excStr e)).2.2.1
                        simp only [after_subscript]
                        rw [sinkEffects_append, sinkEffects_exec_delete]
                        simpa using h1
                    | ok sv =>
                        have h1 := (route_sinks_shape info (mi.getD "unknown") r sv).2.2
                        simp only [after_subscript, apply_ite Prod.fst, ite_self]
                        rw [sinkEffects_append, sinkEffects_exec_delete]
                        simpa using h1
  · intro v info r sv hb hd hp hs
    have hm := process_message_main_effects proc msg v info r sv hb hd hp hs
    refine ⟨?_, ?_, ?_⟩
    · intro hc
      obtain ⟨ha, hb2⟩ : info.isSlack = true ∧ truthyOpt info.slackRespUrl = true := by
        simpa using hc
      obtain ⟨u, hu, hthen, helse⟩ :=
        route_sinks_chat info (msg.messageId.getD "unknown") r sv ha hb2
      constructor
      · by_cases hsv : truthy sv = true
        · refine ⟨.slackSend u r, ?_, rfl⟩
          rw [hm, sinkEffects_append, sinkEffects_exec_delete, hthen hsv]
          rfl
        · refine ⟨.slackError u (slackErrPrefix ++ pyStr (resultErr r)), ?_, rfl⟩
          rw [hm, sinkEffects_append, sinkEffects_exec_delete,
            helse (bool_eq_false _ hsv)]
          rfl
      · intro x hx
        rw [hm] at hx
        rcases List.mem_append.mp hx with hx1 | hx2
        · simp only [List.mem_cons, List.not_mem_nil, or_false] at hx1
          rcases hx1 with rfl | rfl
          · rfl
          · rfl
        · by_cases hsv : truthy sv = true
          · rw [hthen hsv] at hx2
            simp only [List.mem_singleton] at hx2
            subst hx2
            rfl
          · rw [helse (bool_eq_false _ hsv)] at hx2
            simp only [List.mem_singleton] at hx2
            subst hx2
            rfl
    · intro hc cu hcu hct
      rw [hm, sinkEffects_append, sinkEffects_exec_delete,
        route_sinks_webhook info (msg.messageId.getD "unknown") r sv hc cu hcu hct]
      rfl
    · intro hc hcb
      rw [hm, sinkEffects_append, sinkEffects_exec_delete,
        route_sinks_no_sink info (msg.messageId.getD "unknown") r sv hc hcb]
      rfl

/-- A slack sourced message carrying both a slack response url and a
callback url. -/
def msgSlackSample : SqsMessage :=
  ⟨some "m3", some "r3",
    .parsed (.jobj [("request", .jstr "do"), ("source", .jstr "slack"),
      ("metadata", .jobj [("slack_response_url", .jstr "https://hooks.example")]),
      ("callback_url", .jstr "https://cb.example")])⟩

/-- The routing data decoded from msgSlackSample. -/
def infoSlackSample : DecodedInfo :=
  ⟨some (.jstr "do"), true, some (.jstr "https://hooks.example"),
    some (.jstr "https://cb.example")⟩

/-- Concrete instance of the routing theorem: the slack message with
both urls gets exactly one chat sink call and no webhook call. -/
theorem routing_priority_single_sink_witness :
    (∃ e, sinkEffects (process_message procAccepts msgSlackSample).1 = [e]
        ∧ isChatSink e = true)
    ∧ ∀ x ∈ (process_message procAccepts msgSlackSample).1, isWebhookSink x = false := by
  have h := (routing_priority_single_sink procAccepts msgSlackSample).2
    (.jobj [("request", .jstr "do"), ("source", .jstr "slack"),
      ("metadata", .jobj [("slack_response_url", .jstr "https://hooks.example")]),
      ("callback_url", .jstr "https://cb.example")])
    infoSlackSample (.jobj [("success", .jbool true)]) (.jbool true)
    rfl rfl rfl rfl
  exact h.1 rfl

/-- C8: a message routed as chat platform whose metadata mapping lacks
the slack_response_url key but whose body carries a truthy callback_url
is delivered through the chat sink at the callback url, and the webhook
sink is never invoked. -/
theorem slack_url_fallback_to_callback (proc : JsonVal → Except String JsonVal)
    (msg : SqsMessage) (fs mfs : List (String × JsonVal))
    (info : DecodedInfo) (cu r sv : JsonVal)
    (hb : msg.body = .parsed (.jobj fs))
    (hd : decodePhase (.jobj fs) = .ok (some info))
    (hslack : info.isSlack = true)
    (hmd : (lookupField fs "metadata").getD (.jobj []) = .jobj mfs)
    (hnos : lookupField mfs "slack_response_url" = none)
    (hcb : lookupField fs "callback_url" = some cu)
    (hct : truthy cu = true)
    (hp : proc (.jobj fs) = .ok r)
    (hs : pySubscript r "success" = .ok sv) :
    (∃ e, sinkEffects (process_message proc msg).1 = [e]
        ∧ isChatSink e = true ∧ sinkUrl e = some cu)
    ∧ ∀ x ∈ (process_message proc msg).1, isWebhookSink x = false := by
  obtain ⟨hcis, hurl, hcbu⟩ := decodePhase_jobj_inv fs info hd
  have hsru : info.slackRespUrl = some cu := by
    unfold computeSlackUrl at hurl
    rw [hmd] at hurl
    have hurl2 : (Except.ok (pyOr (lookupField mfs "slack_response_url")
        (lookupField fs "callback_url")) : Except PyExc (Option JsonVal))
        = Except.ok info.slackRespUrl := hurl
    rw [hnos, hcb] at hurl2
    have h2 := Except.ok.inj hurl2
    rw [← h2]
    rfl
  have htr : truthyOpt info.slackRespUrl = true := by
    rw [hsru]
    simpa [truthyOpt] using hct
  have hm := process_message_main_effects proc msg (.jobj fs) info r sv hb hd hp hs
  obtain ⟨u, hu, hthen, helse⟩ :=
    route_sinks_chat info (msg.messageId.getD "unknown") r sv hslack htr
  have hucu : u = cu := by
    rw [hsru] at hu
    exact (Option.some.inj hu).symm
  subst hucu
  constructor
  · by_cases hsv : truthy sv = true
    · refine ⟨.slackSend u r, ?_, rfl, rfl⟩
      rw [hm, sinkEffects_append, sinkEffects_exec_delete, hthen hsv]
      rfl
    · refine ⟨.slackError u (slackErrPrefix ++ pyStr (resultErr r)), ?_, rfl, rfl⟩
      rw [hm, sinkEffects_append, sinkEffects_exec_delete, helse (bool_eq_false _ hsv)]
      rfl
  · intro x hx
    rw [hm] at hx
    rcases List.mem_append.mp hx with hx1 | hx2
    · simp only [List.mem_cons, List.not_mem_nil, or_false] at hx1
      rcases hx1 with rfl | rfl
      · rfl
      · rfl
    · by_cases hsv : truthy sv = true
      · rw [hthen hsv] at hx2
        simp only [List.mem_singleton] at hx2
        subst hx2
        rfl
      · rw [helse (bool_eq_false _ hsv)] at hx2
        simp only [List.mem_singleton] at hx2
        subst hx2
        rfl

/-- A slack sourced message with no metadata mapping at all and a set
callback url. -/
def msgFallbackSample : SqsMessage :=
  ⟨some "m8", some "r8",
    .parsed (.jobj [("request", .jstr "go"), ("source", .jstr "slack"),
      ("callback_url", .jstr "https://cb8.example")])⟩

/-- The routing data decoded from msgFallbackSample: the chat url falls
back to the callback url. -/
def infoFallbackSample : DecodedInfo :=
  ⟨some (.jstr "go"), true, some (.jstr "https://cb8.example"),
    some (.jstr "https://cb8.example")⟩

/-- Concrete instance of the fallback theorem: delivery goes to the chat
sink at the callback url and the webhook sink stays silent. -/
theorem slack_url_fallback_to_callback_witness :
    ((∃ e, sinkEffects (process_message procAccepts msgFallbackSample).1 = [e]
        ∧ isChatSink e = true ∧ sinkUrl e = some (.jstr "https://cb8.example"))
    ∧ ∀ x ∈ (process_message procAccepts msgFallbackSample).1, isWebhookSink x = false) :=
  slack_url_fallback_to_callback procAccepts msgFallbackSample
    [("request", .jstr "go"), ("source", .jstr "slack"),
      ("callback_url", .jstr "https://cb8.example")]
    [] infoFallbackSample (.jstr "https://cb8.example")
    (.jobj [("success", .jbool true)]) (.jbool true)
    rfl rfl rfl rfl rfl rfl rfl rfl rfl

/-- C9: the decoded slack classification is true whenever the metadata
mapping contains a truthy slack_event_type entry, for any source value. -/
theorem slack_classification_by_event_type (fs mfs : List (String × JsonVal))
    (info : DecodedInfo) (x : JsonVal)
    (hd : decodePhase (.jobj fs) = .ok (some info))
    (hmd : lookupField fs "metadata" = some (.jobj mfs))
    (hev : lookupField mfs "slack_event_type" = some x)
    (ht : truthy x = true) :
    info.isSlack = true := by
  obtain ⟨hcis, hurl, hcbu⟩ := decodePhase_jobj_inv fs info hd
  unfold computeIsSlack at hcis
  by_cases hsrc : eqStrVal "slack" ((lookupField fs "source").getD (.jstr "")) = true
  · rw [if_pos hsrc] at hcis
    exact (Except.ok.inj hcis).symm
  · rw [if_neg hsrc, hmd] at hcis
    simp only [Option.getD] at hcis
    rw [hev] at hcis
    simp only [truthyOpt] at hcis
    rw [ht] at hcis
    exact (Except.ok.inj hcis).symm

/-- A body whose source is not slack but whose metadata carries a truthy
slack_event_type entry. -/
def fsEventTypeSample : List (String × JsonVal) :=
  [("request", .jstr "hi"), ("source", .jstr "webhook"),
   ("metadata", .jobj [("slack_event_type", .jstr "app_mention")])]

/-- The routing data decoded from fsEventTypeSample. -/
def infoEventTypeSample : DecodedInfo := ⟨some (.jstr "hi"), true, none, none⟩

/-- Concrete instance of the classification theorem: the event type
entry alone makes the message slack classified. -/
theorem slack_classification_by_event_type_witness :
    decodePhase (.jobj fsEventTypeSample) = .ok (some infoEventTypeSample)
    ∧ infoEventTypeSample.isSlack = true :=
  ⟨rfl, slack_classification_by_event_type fsEventTypeSample
      [("slack_event_type", .jstr "app_mention")] infoEventTypeSample
      (.jstr "app_mention") rfl rfl rfl rfl⟩

/-!
LifecycleController and WorkerPool: the run loop of
ZarathustraAWSOpsListener (lines 271 to 317), the ThreadPoolExecutor
bound of max_workers (line 80), and the signal handler (lines 89 to 92),
modelled as a labelled transition system.  A state carries the shutdown
flag, the control phase of the poll loop, the executor task counters,
the number of Receive calls issued and whether the HTTP clients were
released.  Tasks submitted to the executor start only while fewer than N
run, mirroring the thread pool semantics.
-/

/-- Control phase of the poll loop and shutdown sequence. -/
inductive Phase where
  | polling : Phase
  | dispatching : Nat → Phase
  | waiting : Phase
  | shuttingDown : Phase
  | closingClients : Phase
  | stopped : Phase

/-- Global state of the listener process. -/
structure LoopState where
  shutdownRequested : Bool
  phase : Phase
  queuedTasks : Nat
  runningTasks : Nat
  finishedTasks : Nat
  receiveCalls : Nat
  clientsReleased : Bool

/-- State right after construction: flag clear, loop about to poll. -/
def initState : LoopState := ⟨false, .polling, 0, 0, 0, 0, false⟩

/-- One step of the listener: the poll loop checks the flag and either
receives (empty or a batch) or exits to executor shutdown; submitted
tasks start only while fewer than N run; executor shutdown with wait
completes only when no task is queued or running; clients are released
after that, then the process stops.  The signal can arrive at any time. -/
inductive LoopStep (N : Nat) : LoopState → LoopState → Prop where
  | signalArrives (s : LoopState) :
      LoopStep N s ⟨true, s.phase, s.queuedTasks, s.runningTasks,
        s.finishedTasks, s.receiveCalls, s.clientsReleased⟩
  | receiveEmpty (s : LoopState) :
      s.phase = .polling → s.shutdownRequested = false →
      LoopStep N s ⟨s.shutdownRequested, .polling, s.queuedTasks, s.runningTasks,
        s.finishedTasks, s.receiveCalls + 1, s.clientsReleased⟩
  | receiveBatch (s : LoopState) (batch : Nat) :
      s.phase = .polling → s.shutdownRequested = false → 0 < batch →
      LoopStep N s ⟨s.shutdownRequested, .dispatching batch, s.queuedTasks, s.runningTasks,
        s.finishedTasks, s.receiveCalls + 1, s.clientsReleased⟩
  | submitTask (s : LoopState) (k : Nat) :
      s.phase = .dispatching (k + 1) →
      LoopStep N s ⟨s.shutdownRequested, .dispatching k, s.queuedTasks + 1, s.runningTasks,
        s.finishedTasks, s.receiveCalls, s.clientsReleased⟩
  | dispatchDone (s : LoopState) :
      s.phase = .dispatching 0 →
      LoopStep N s ⟨s.shutdownRequested, .waiting, s.queuedTasks, s.runningTasks,
        s.finishedTasks, s.receiveCalls, s.clientsReleased⟩
  | startTask (s : LoopState) :
      0 < s.queuedTasks → s.runningTasks < N →
      LoopStep N s ⟨s.shutdownRequested, s.phase, s.queuedTasks - 1, s.runningTasks + 1,
        s.finishedTasks, s.receiveCalls, s.clientsReleased⟩
  | finishTask (s : LoopState) :
      0 < s.runningTasks →
      LoopStep N s ⟨s.shutdownRequested, s.phase, s.queuedTasks, s.runningTasks - 1,
        s.finishedTasks + 1, s.receiveCalls, s.clientsReleased⟩
  | batchComplete (s : LoopState) :
      s.phase = .waiting → s.queuedTasks = 0 → s.runningTasks = 0 →
      LoopStep N s ⟨s.shutdownRequested, .polling, s.queuedTasks, s.runningTasks,
        s.finishedTasks, s.receiveCalls, s.clientsReleased⟩
  | observeShutdown (s : LoopState) :
      s.phase = .polling → s.shutdownRequested = true →
      LoopStep N s ⟨s.shutdownRequested, .shuttingDown, s.queuedTasks, s.runningTasks,
        s.finishedTasks, s.receiveCalls, s.clientsReleased⟩
  | poolShutdownComplete (s : LoopState) :
      s.phase = .shuttingDown → s.queuedTasks = 0 → s.runningTasks = 0 →
      LoopStep N s ⟨s.shutdownRequested, .closingClients, s.queuedTasks, s.runningTasks,
        s.finishedTasks, s.receiveCalls, s.clientsReleased⟩
  | releaseClients (s : LoopState) :
      s.phase = .closingClients →
      LoopStep N s ⟨s.shutdownRequested, .stopped, s.queuedTasks, s.runningTasks,
        s.finishedTasks, s.receiveCalls, true⟩

/-- States reachable from process start. -/
inductive Reach (N : Nat) : LoopState → Prop where
  | init : Reach N initState
  | step (s t : LoopState) : Reach N s → LoopStep N s t → Reach N t

/-- Multi step reachability between two states. -/
inductive ReachFrom (N : Nat) : LoopState → LoopState → Prop where
  | refl (s : LoopState) : ReachFrom N s s
  | step (s t u : LoopState) : ReachFrom N s t → LoopStep N t u → ReachFrom N s u

/-- Phases after the poll loop has observed the shutdown flag. -/
def postLoopPhase : Phase → Bool
  | .shuttingDown => true
  | .closingClients => true
  | .stopped => true
  | _ => false

/-- C4: in every reachable state the number of in-flight worker tasks is
at most the pool size N, and no step loses a task: the total number of
queued, running and finished tasks never decreases, so a burst larger
than the free slots queues behind slot availability instead of being
dropped. -/
theorem worker_pool_concurrency_bound (N : Nat) (s : LoopState) (h : Reach N s) :
    s.runningTasks ≤ N
    ∧ ∀ t, LoopStep N s t →
        s.queuedTasks + s.runningTasks + s.finishedTasks
          ≤ t.queuedTasks + t.runningTasks + t.finishedTasks := by
  constructor
  · induction h with
    | init => exact Nat.zero_le N
    | step s t hs hstep ih =>
        cases hstep with
        | signalArrives => exact ih
        | receiveEmpty hph hsd => exact ih
        | receiveBatch batch hph hsd hb => exact ih
        | submitTask k hph => exact ih
        | dispatchDone hph => exact ih
        | startTask hq hr => exact hr
        | finishTask hr => exact Nat.le_trans (Nat.sub_le _ _) ih
        | batchComplete hph hq hr => exact ih
        | observeShutdown hph hsd => exact ih
        | poolShutdownComplete hph hq hr => exact ih
        | releaseClients hph => exact ih
  · intro t hstep
    cases hstep <;> simp <;> omega

/-- Concrete instance of the concurrency bound: after receiving a batch
of three with pool size two, two tasks run, the bound holds and the
remaining task is still queued behind slot availability. -/
theorem worker_pool_concurrency_bound_witness :
    (⟨false, .dispatching 1, 0, 2, 0, 1, false⟩ : LoopState).runningTasks ≤ 2
    ∧ ∀ t, LoopStep 2 ⟨false, .dispatching 1, 0, 2, 0, 1, false⟩ t →
        (⟨false, .dispatching 1, 0, 2, 0, 1, false⟩ : LoopState).queuedTasks
          + (⟨false, .dispatching 1, 0, 2, 0, 1, false⟩ : LoopState).runningTasks
          + (⟨false, .dispatching 1, 0, 2, 0, 1, false⟩ : LoopState).finishedTasks
          ≤ t.queuedTasks + t.runningTasks + t.finishedTasks := by
  have h0 : Reach 2 initState := .init
  have h1 : Reach 2 ⟨false, .dispatching 3, 0, 0, 0, 1, false⟩ :=
    .step _ _ h0 (.receiveBatch initState 3 rfl rfl (by decide))
  have h2 : Reach 2 ⟨false, .dispatching 2, 1, 0, 0, 1, false⟩ :=
    .step _ _ h1 (.submitTask _ 2 rfl)
  have h3 : Reach 2 ⟨false, .dispatching 1, 2, 0, 0, 1, false⟩ :=
    .step _ _ h2 (.submitTask _ 1 rfl)
  have h4 : Reach 2 ⟨false, .dispatching 1, 1, 1, 0, 1, false⟩ :=
    .step _ _ h3 (.startTask _ (by decide) (by decide))
  have h5 : Reach 2 ⟨false, .dispatching 1, 0, 2, 0, 1, false⟩ :=
    .step _ _ h4 (.startTask _ (by decide) (by decide))
  exact worker_pool_concurrency_bound 2 _ h5

/-- The drain invariant: released clients mean a stopped process with no
outstanding tasks, the closing and stopped phases carry no outstanding
tasks, and a stopped process has released its clients. -/
def C5Inv (s : LoopState) : Prop :=
  (s.clientsReleased = true →
      s.runningTasks = 0 ∧ s.queuedTasks = 0 ∧ s.phase = .stopped)
  ∧ ((s.phase = .closingClients ∨ s.phase = .stopped) →
      s.runningTasks = 0 ∧ s.queuedTasks = 0)
  ∧ (s.phase = .stopped → s.clientsReleased = true)

/-- The drain invariant is preserved by every step. -/
theorem C5Inv_step (N : Nat) (s t : LoopState) (h : C5Inv s)
    (hstep : LoopStep N s t) : C5Inv t := by
  obtain ⟨h1, h2, h3⟩ := h
  cases hstep with
  | signalArrives => exact ⟨h1, h2, h3⟩
  | receiveEmpty hph hsd =>
      refine ⟨fun hc => ?_, fun hc => ?_, fun hc => ?_⟩
      · exact absurd (h1 hc).2.2 (by rw [hph]; exact fun hcon => Phase.noConfusion hcon)
      · rcases hc with hc | hc <;> exact Phase.noConfusion hc
      · exact Phase.noConfusion hc
  | receiveBatch batch hph hsd hb =>
      refine ⟨fun hc => ?_, fun hc => ?_, fun hc => ?_⟩
      · exact absurd (h1 hc).2.2 (by rw [hph]; exact fun hcon => Phase.noConfusion hcon)
      · rcases hc with hc | hc <;> exact Phase.noConfusion hc
      · exact Phase.noConfusion hc
  | submitTask k hph =>
      refine ⟨fun hc => ?_, fun hc => ?_, fun hc => ?_⟩
      · exact absurd (h1 hc).2.2 (by rw [hph]; exact fun hcon => Phase.noConfusion hcon)
      · rcases hc with hc | hc <;> exact Phase.noConfusion hc
      · exact Phase.noConfusion hc
  | dispatchDone hph =>
      refine ⟨fun hc => ?_, fun hc => ?_, fun hc => ?_⟩
      · exact absurd (h1 hc).2.2 (by rw [hph]; exact fun hcon => Phase.noConfusion hcon)
      · rcases hc with hc | hc <;> exact Phase.noConfusion hc
      · exact Phase.noConfusion hc
  | startTask hq hr =>
      refine ⟨fun hc => ?_, fun hc => ?_, fun hc => ?_⟩
      · exact absurd (h1 hc).2.1 (by omega)
      · exact absurd (h2 hc).2 (by omega)
      · exact h3 hc
  | finishTask hr =>
      refine ⟨fun hc => ?_, fun hc => ?_, fun hc => ?_⟩
      · exact absurd (h1 hc).1 (by omega)
      · exact absurd (h2 hc).1 (by omega)
      · exact h3 hc
  | batchComplete hph hq hr =>
      refine ⟨fun hc => ?_, fun hc => ?_, fun hc => ?_⟩
      · exact absurd (h1 hc).2.2 (by rw [hph]; exact fun hcon => Phase.noConfusion hcon)
      · rcases hc with hc | hc <;> exact Phase.noConfusion hc
      · exact Phase.noConfusion hc
  | observeShutdown hph hsd =>
      refine ⟨fun hc => ?_, fun hc => ?_, fun hc => ?_⟩
      · exact absurd (h1 hc).2.2 (by rw [hph]; exact fun hcon => Phase.noConfusion hcon)
      · rcases hc with hc | hc <;> exact Phase.noConfusion hc
      · exact Phase.noConfusion hc
  | poolShutdownComplete hph hq hr =>
      refine ⟨fun hc => ?_, fun hc => ⟨hr, hq⟩, fun hc => ?_⟩
      · exact absurd (h1 hc).2.2 (by rw [hph]; exact fun hcon => Phase.noConfusion hcon)
      · exact Phase.noConfusion hc
  | releaseClients hph =>
      have hz := h2 (Or.inl hph)
      exact ⟨fun _ => ⟨hz.1, hz.2, rfl⟩, fun _ => hz, fun _ => rfl⟩

/-- The drain invariant holds in every reachable state. -/
theorem C5Inv_reach (N : Nat) (s : LoopState) (h : Reach N s) : C5Inv s := by
  induction h with
  | init =>
      refine ⟨fun hc => ?_, fun hc => ?_, fun hc => ?_⟩
      · exact Bool.noConfusion hc
      · rcases hc with hc | hc <;> exact Phase.noConfusion hc
      · exact Phase.noConfusion hc
  | step s t hs hstep ih => exact C5Inv_step N s t ih hstep

/-- After the loop observed shutdown, one step keeps the process out of
the loop and issues no Receive call. -/
theorem post_loop_no_receive (N : Nat) (s t : LoopState)
    (hpost : postLoopPhase s.phase = true) (hstep : LoopStep N s t) :
    postLoopPhase t.phase = true ∧ t.receiveCalls = s.receiveCalls := by
  cases hstep with
  | signalArrives => exact ⟨hpost, rfl⟩
  | receiveEmpty hph hsd => rw [hph] at hpost; exact Bool.noConfusion hpost
  | receiveBatch batch hph hsd hb => rw [hph] at hpost; exact Bool.noConfusion hpost
  | submitTask k hph => rw [hph] at hpost; exact Bool.noConfusion hpost
  | dispatchDone hph => rw [hph] at hpost; exact Bool.noConfusion hpost
  | startTask hq hr => exact ⟨hpost, rfl⟩
  | finishTask hr => exact ⟨hpost, rfl⟩
  | batchComplete hph hq hr => rw [hph] at hpost; exact Bool.noConfusion hpost
  | observeShutdown hph hsd => rw [hph] at hpost; exact Bool.noConfusion hpost
  | poolShutdownComplete hph hq hr => exact ⟨rfl, rfl⟩
  | releaseClients hph => exact ⟨rfl, rfl⟩

/-- After the loop observed shutdown, no later state ever issues another
Receive call and the process never re-enters the loop. -/
theorem post_loop_no_receive_trace (N : Nat) (s t : LoopState)
    (hpost : postLoopPhase s.phase = true) (h : ReachFrom N s t) :
    postLoopPhase t.phase = true ∧ t.receiveCalls = s.receiveCalls := by
  induction h with
  | refl => exact ⟨hpost, rfl⟩
  | step b c hab hstep ih =>
      obtain ⟨ih1, ih2⟩ := ih
      obtain ⟨p1, p2⟩ := post_loop_no_receive N b c ih1 hstep
      exact ⟨p1, by rw [p2, ih2]⟩

/-- C5: from any reachable state, once the poll loop has observed the
shutdown flag (a post loop phase), no further Receive call is ever
issued and the process never returns to the loop; the HTTP clients are
released only when no worker task is queued or running and the process
is stopping, and a stopped process has released them. -/
theorem graceful_shutdown_drain (N : Nat) (s : LoopState) (h : Reach N s) :
    (∀ t, postLoopPhase s.phase = true → ReachFrom N s t →
        postLoopPhase t.phase = true ∧ t.receiveCalls = s.receiveCalls)
    ∧ (s.clientsReleased = true →
        s.runningTasks = 0 ∧ s.queuedTasks = 0 ∧ s.phase = .stopped)
    ∧ (s.phase = .stopped → s.clientsReleased = true)
    ∧ (∀ t, LoopStep N s t → s.phase = .shuttingDown → t.phase = .closingClients →
        s.runningTasks = 0 ∧ s.queuedTasks = 0) := by
  have hinv := C5Inv_reach N s h
  refine ⟨fun t hpost htr => post_loop_no_receive_trace N s t hpost htr,
    hinv.1, hinv.2.2, fun t hstep hs ht => ?_⟩
  cases hstep with
  | signalArrives => rw [hs] at ht; exact Phase.noConfusion ht
  | receiveEmpty hph hsd => rw [hph] at hs; exact Phase.noConfusion hs
  | receiveBatch batch hph hsd hb => rw [hph] at hs; exact Phase.noConfusion hs
  | submitTask k hph => rw [hph] at hs; exact Phase.noConfusion hs
  | dispatchDone hph => rw [hph] at hs; exact Phase.noConfusion hs
  | startTask hq hr => rw [hs] at ht; exact Phase.noConfusion ht
  | finishTask hr => rw [hs] at ht; exact Phase.noConfusion ht
  | batchComplete hph hq hr => rw [hph] at hs; exact Phase.noConfusion hs
  | observeShutdown hph hsd => exact Phase.noConfusion ht
  | poolShutdownComplete hph hq hr => exact ⟨hr, hq⟩
  | releaseClients hph => rw [hph] at hs; exact Phase.noConfusion hs

/-- The state after a full clean shutdown of the sample trace. -/
def sampleStoppedState : LoopState := ⟨true, .stopped, 0, 0, 0, 0, true⟩

/-- Concrete instance of the drain theorem at the end of a trace that
receives a signal while polling, observes it, waits out the pool and
releases the clients. -/
theorem graceful_shutdown_drain_witness :
    (∀ t, postLoopPhase sampleStoppedState.phase = true →
        ReachFrom 2 sampleStoppedState t →
        postLoopPhase t.phase = true ∧ t.receiveCalls = sampleStoppedState.receiveCalls)
    ∧ (sampleStoppedState.clientsReleased = true →
        sampleStoppedState.runningTasks = 0 ∧ sampleStoppedState.queuedTasks = 0
        ∧ sampleStoppedState.phase = .stopped)
    ∧ (sampleStoppedState.phase = .stopped → sampleStoppedState.clientsReleased = true)
    ∧ (∀ t, LoopStep 2 sampleStoppedState t →
        sampleStoppedState.phase = .shuttingDown → t.phase = .closingClients →
        sampleStoppedState.runningTasks = 0 ∧ sampleStoppedState.queuedTasks = 0) := by
  have h0 : Reach 2 initState := .init
  have h1 : Reach 2 ⟨true, .polling, 0, 0, 0, 0, false⟩ :=
    .step _ _ h0 (.signalArrives initState)
  have h2 : Reach 2 ⟨true, .shuttingDown, 0, 0, 0, 0, false⟩ :=
    .step _ _ h1 (.observeShutdown _ rfl rfl)
  have h3 : Reach 2 ⟨true, .closingClients, 0, 0, 0, 0, false⟩ :=
    .step _ _ h2 (.poolShutdownComplete _ rfl rfl rfl)
  have h4 : Reach 2 sampleStoppedState :=
    .step _ _ h3 (.releaseClients _ rfl)
  exact graceful_shutdown_drain 2 sampleStoppedState h4
